import Mathlib

/-!
Verification development for the pyPASreporterGUI repository.

This file gives a shallow embedding of the parts of the repository that the
checked properties talk about:

* `PinTool` models `tools/pin_superset.py`: the git-facing version-pinning
  tool.  External git commands are modelled by a world state (`GitWorld`)
  together with explicit world-transformers, and every modelled run records
  the trace of git commands it issues (`GitCmd`).
* `Pyjson` models the fragment of Python's `json` module that the tool
  exercises: `json.dumps(data, indent=2)` on a flat dict of strings, and
  `json.loads` on the text so produced.
* `RuntimeCfg` models `src/pypasreportergui/runtime.py`: configuration
  generation over an explicit filesystem state, and the PyInstaller
  frozen-mode path resolution helpers.
* `Branding` models `src/pypasreportergui/branding/blueprint.py`.
-/

/-- ASCII whitespace as recognised by Python's `str.strip` (the inputs the
tools handle are ASCII; Python additionally strips other Unicode space). -/
def isPyWs (c : Char) : Bool :=
  c = ' ' || c = '\t' || c = '\n' || c = '\r' || c = '\x0b' || c = '\x0c'

def dropLeadWs : List Char → List Char
  | [] => []
  | c :: r => if isPyWs c then dropLeadWs r else c :: r

/-- Model of Python's `str.strip()`. -/
def pyStrip (s : String) : String :=
  String.mk ((dropLeadWs ((dropLeadWs s.data).reverse)).reverse)

/-- Model of Python's `str.split(sep)` for a one-character separator:
splits on every occurrence, keeping empty pieces, and maps the empty string
to `[""]`. -/
def splitChar (c : Char) : List Char → List (List Char)
  | [] => [[]]
  | x :: xs =>
    match splitChar c xs with
    | [] => [[x]]
    | y :: ys => if x = c then [] :: y :: ys else (x :: y) :: ys

def pySplitOn (c : Char) (s : String) : List String :=
  (splitChar c s.data).map String.mk

/-- Model of the Python slice `s[:n]` (by code points). -/
def pyTake (s : String) (n : Nat) : String :=
  String.mk (s.data.take n)

/-- Substring containment, stated over the underlying character lists. -/
def strContains (s pat : String) : Prop :=
  ∃ a b : List Char, s.data = a ++ pat.data ++ b

theorem string_data_append (s t : String) : (s ++ t).data = s.data ++ t.data := by
  cases s; cases t; rfl

theorem strContains_left {s pat : String} (t : String) (h : strContains s pat) :
    strContains (s ++ t) pat := by
  obtain ⟨a, b, hab⟩ := h
  exact ⟨a, b ++ t.data, by simp [string_data_append, hab]⟩

theorem strContains_right {t pat : String} (s : String) (h : strContains t pat) :
    strContains (s ++ t) pat := by
  obtain ⟨a, b, hab⟩ := h
  exact ⟨s.data ++ a, b, by simp [string_data_append, hab]⟩

theorem strContains_self_append (pat t : String) : strContains (pat ++ t) pat :=
  ⟨[], t.data, by simp [string_data_append]⟩

namespace PinTool

/-- Git commands issued by the pin tool, as recorded in a run trace.
Bookkeeping queries (`rev-parse`, `show-ref`, `symbolic-ref`, `tag -l`) are
not traced; state-changing commands and checkout attempts are. -/
inductive GitCmd where
  /-- one attempt of `git checkout <ref>` -/
  | checkout (ref : String)
  /-- an attempt of `git checkout -B <branch> origin/<branch>` -/
  | checkoutB (branch startPoint : String)
  /-- one `git fetch --all --tags --prune` -/
  | fetchAllTags
  /-- one `git fetch --unshallow --tags --prune` -/
  | fetchUnshallow
  /-- one `git fetch --depth 1000000 --tags --prune` -/
  | fetchDeep
  /-- one `git fetch origin <ref>` -/
  | fetchRef (ref : String)
  /-- one `git pull --ff-only` -/
  | pull
  deriving DecidableEq, Repr

/-- Abstract state of the local clone and of the remote, as far as the pin
tool can observe it through git.  Refs are identified by the name under which
`git checkout` accepts them. -/
structure GitWorld where
  /-- result of `git rev-parse --is-shallow-repository` -/
  shallow : Bool
  /-- whether `git fetch --unshallow` succeeds in making the clone full -/
  unshallowWorks : Bool
  /-- whether the fallback `git fetch --depth 1000000` retrieves the history -/
  deepWorks : Bool
  /-- refs checkoutable right now without any further fetching -/
  localRefs : List String
  /-- refs that additionally become checkoutable after `fetch --all --tags --prune` -/
  remoteRefs : List String
  /-- refs that additionally become checkoutable once the clone history is full -/
  deepRefs : List String
  /-- refs that `git fetch origin <ref>` can retrieve on demand -/
  originRefs : List String
  /-- the commit SHA a ref resolves to when checked out -/
  headOf : String → String
  /-- the SHA printed by `git rev-parse HEAD` in the current state -/
  head : String
  /-- stdout of `git tag -l --sort=-v:refname`: tag names, newest version first -/
  tagsOut : String
  /-- stdout of `git symbolic-ref refs/remotes/origin/HEAD` when it exits 0 -/
  originHead : Option String
  /-- branches for which `refs/remotes/origin/<b>` verifies via `show-ref` -/
  remoteBranches : List String
  /-- stdout captured from a failed checkout of a ref -/
  coStdout : String → String
  /-- stderr captured from a failed checkout of a ref -/
  coStderr : String → String
  /-- whether `git pull --ff-only` on the given branch fast-forwards -/
  pullAdvances : String → Bool
  /-- the SHA of the branch tip that a fast-forwarding pull moves HEAD to -/
  pullTip : String → String

/-- Effect of `git fetch --all --tags --prune` (`git(..., check=False)`,
line 77 / 114 / 234 / 239 of `tools/pin_superset.py`). -/
def fetchAllTagsEff (w : GitWorld) : GitWorld :=
  { w with localRefs := w.localRefs ++ w.remoteRefs }

/-- Effect of the fallback `git fetch --depth 1000000 --tags --prune`
(line 47): best effort, retrieves the deep refs when it works. -/
def deepEff (w : GitWorld) : GitWorld :=
  if w.deepWorks then { w with localRefs := w.localRefs ++ w.deepRefs } else w

/-- Effect of a successful `git checkout <ref>`: HEAD moves to the commit the
ref resolves to. -/
def checkoutEff (w : GitWorld) (ref : String) : GitWorld :=
  { w with head := w.headOf ref }

/-- Effect of `git fetch origin <ref>` (line 118, `check=False`): makes the
ref checkoutable when origin can serve it. -/
def fetchRefEff (w : GitWorld) (ref : String) : GitWorld :=
  if ref ∈ w.originRefs then { w with localRefs := w.localRefs ++ [ref] } else w

/-- Effect of `git pull --ff-only` on the current branch (line 86,
`check=False`): on a fast-forward, HEAD moves to the branch tip. -/
def pullEff (w : GitWorld) (branch : String) : GitWorld :=
  if w.pullAdvances branch then { w with head := w.pullTip branch } else w

/-- Model of `ensure_full_history` (lines 39-47): if the repo is shallow, try
`fetch --unshallow`; if it is still shallow afterwards, fall back to a deep
fetch.  Returns the new world and the trace of fetch commands issued. -/
def ensure_full_history (w : GitWorld) : GitWorld × List GitCmd :=
  if w.shallow then
    let w1 := if w.unshallowWorks then
      { w with shallow := false, localRefs := w.localRefs ++ w.deepRefs }
    else w
    if w1.shallow then (deepEff w1, [GitCmd.fetchUnshallow, GitCmd.fetchDeep])
    else (w1, [GitCmd.fetchUnshallow])
  else (w, [])

/-- Model of `checkout_ref` (lines 103-127): try a plain checkout; on failure
fetch tags, ensure full history, fetch the ref explicitly, and retry exactly
once; raise `RuntimeError` naming the ref when the retry also fails.  The
source wraps the ref in single quotes (written here via `\x27`). -/
def checkout_ref (w : GitWorld) (ref : String) : Except String (GitWorld × List GitCmd) :=
  if ref ∈ w.localRefs then
    Except.ok (checkoutEff w ref, [GitCmd.checkout ref])
  else
    let w1 := fetchAllTagsEff w
    let p := ensure_full_history w1
    let w3 := fetchRefEff p.1 ref
    if ref ∈ w3.localRefs then
      Except.ok (checkoutEff w3 ref,
        GitCmd.checkout ref :: GitCmd.fetchAllTags :: p.2
          ++ [GitCmd.fetchRef ref, GitCmd.checkout ref])
    else
      Except.error ("Failed to checkout ref \x27" ++ ref ++ "\x27.\n"
        ++ "stdout:\n" ++ w3.coStdout ref ++ "\n"
        ++ "stderr:\n" ++ w3.coStderr ref ++ "\n")

/-- Recogniser for the pattern `^\d+\.\d+\.\d+$` of `get_latest_tag`
(line 94): exactly three dot-separated, non-empty, digits-only components,
fully anchored.  Python's `\d` also accepts non-ASCII decimal digits; the
tool only ever sees ASCII git refnames, and we model `\d` as an ASCII digit. -/
def isSemverTag (s : String) : Bool :=
  match splitChar '.' s.data with
  | [a, b, c] =>
    (!a.isEmpty && a.all Char.isDigit)
      && (!b.isEmpty && b.all Char.isDigit)
      && (!c.isEmpty && c.all Char.isDigit)
  | _ => false

/-- The stripped tag candidates `get_latest_tag` iterates over:
`result.stdout.strip().split("\n")`, each entry stripped (line 96). -/
def tagCandidates (tagsOut : String) : List String :=
  (pySplitOn '\n' (pyStrip tagsOut)).map pyStrip

/-- Model of `get_latest_tag` (lines 89-100) applied to the stdout of
`git tag -l --sort=-v:refname`: strip the output, split on newlines, strip
each candidate, and return the first one matching the semver pattern;
raise `RuntimeError` when none matches. -/
def get_latest_tag (tagsOut : String) : Except String String :=
  match (tagCandidates tagsOut).find? isSemverTag with
  | some t => Except.ok t
  | none => Except.error "No valid release tag found"

/-- Model of `get_default_branch` (lines 60-71): prefer the branch named by
`symbolic-ref refs/remotes/origin/HEAD`; otherwise the first of
`main`, `master`, `next` that `show-ref` verifies; otherwise raise. -/
def get_default_branch (w : GitWorld) : Except String String :=
  let fromHead : Option String :=
    match w.originHead with
    | some out =>
      if pyStrip out = "" then none
      else some ((pySplitOn '/' (pyStrip out)).getLastD "")
    | none => none
  match fromHead with
  | some b => Except.ok b
  | none =>
    match ["main", "master", "next"].find? (fun c => w.remoteBranches.contains c) with
    | some b => Except.ok b
    | none => Except.error "Unable to determine default branch"

/-- Model of `update_repo` (lines 74-86): fetch everything, ensure full
history, check the branch out (creating a local branch from
`origin/<branch>` when a plain checkout fails; that fallback uses
`check=True` and so raises on failure), then `pull --ff-only`. -/
def update_repo (w : GitWorld) (branch : String) : Except String (GitWorld × List GitCmd) :=
  let w1 := fetchAllTagsEff w
  let p := ensure_full_history w1
  if branch ∈ p.1.localRefs then
    Except.ok (pullEff (checkoutEff p.1 branch) branch,
      GitCmd.fetchAllTags :: p.2 ++ [GitCmd.checkout branch, GitCmd.pull])
  else if ("origin/" ++ branch) ∈ p.1.localRefs then
    Except.ok (pullEff { p.1 with head := p.1.headOf ("origin/" ++ branch) } branch,
      GitCmd.fetchAllTags :: p.2
        ++ [GitCmd.checkout branch, GitCmd.checkoutB branch ("origin/" ++ branch), GitCmd.pull])
  else
    Except.error ("git checkout -B " ++ branch ++ " origin/" ++ branch ++ " failed")

/-- Command-line arguments of `tools/pin_superset.py` that affect ref
resolution.  `sha` and `branch` are `None` by default and argparse stores
plain strings, so Python truthiness (`if args.sha:`) treats both `None` and
the empty string as absent. -/
structure Args where
  sha : Option String
  latestTag : Bool
  branch : Option String
  /-- parsed with `type=int, default=100`; never read by the resolution code -/
  scanLimit : Int
  writeVersion : Bool

/-- Python truthiness of an optional string argument. -/
def truthy (o : Option String) : Bool :=
  match o with
  | some s => s ≠ ""
  | none => false

/-- Outcome of a successful run of the resolution part of `main`. -/
structure PinResult where
  world : GitWorld
  /-- the SHA printed by `main` (`sha = get_head_sha(repo_root)`, line 250) -/
  sha : String
  /-- the `branch_or_tag` value recorded by `main` -/
  branchOrTag : String
  trace : List GitCmd

/-- The `args.branch or get_default_branch(repo_root)` expression of
line 246, with Python truthiness on `args.branch`. -/
def resolvedBranch (args : Args) (w : GitWorld) : Except String String :=
  match args.branch with
  | some b => if b = "" then get_default_branch w else Except.ok b
  | none => get_default_branch w

/-- Model of the ref-resolution part of `main` (lines 232-250): dispatch on
`args.sha`, then `args.latest_tag`, then branch mode; afterwards report
`get_head_sha`, i.e. the HEAD of the final world. -/
def mainResolve (args : Args) (w : GitWorld) : Except String PinResult :=
  if truthy args.sha then
    let ref := args.sha.getD ""
    let w1 := fetchAllTagsEff w
    let p := ensure_full_history w1
    match checkout_ref p.1 ref with
    | Except.error e => Except.error e
    | Except.ok (w3, t3) =>
      Except.ok ⟨w3, w3.head, pyTake ref 12, GitCmd.fetchAllTags :: p.2 ++ t3⟩
  else if args.latestTag then
    let w1 := fetchAllTagsEff w
    let p := ensure_full_history w1
    match get_latest_tag p.1.tagsOut with
    | Except.error e => Except.error e
    | Except.ok tag =>
      match checkout_ref p.1 tag with
      | Except.error e => Except.error e
      | Except.ok (w3, t3) =>
        Except.ok ⟨w3, w3.head, tag, GitCmd.fetchAllTags :: p.2 ++ t3⟩
  else
    match resolvedBranch args w with
    | Except.error e => Except.error e
    | Except.ok b =>
      match update_repo w b with
      | Except.error e => Except.error e
      | Except.ok (w2, t2) => Except.ok ⟨w2, w2.head, b, t2⟩

/-- The refs targeted by checkout attempts in a trace (for `checkout -B b
origin/b` the branch `b` being checked out). -/
def checkoutTargets : List GitCmd → List String
  | [] => []
  | GitCmd.checkout r :: t => r :: checkoutTargets t
  | GitCmd.checkoutB b _ :: t => b :: checkoutTargets t
  | _ :: t => checkoutTargets t

/-- A concrete world used to exercise the theorems on closed inputs. -/
def sampleWorld : GitWorld :=
  { shallow := false
    unshallowWorks := true
    deepWorks := true
    localRefs := ["a", "main", "origin/main", "4.1.2"]
    remoteRefs := ["b"]
    deepRefs := ["c"]
    originRefs := ["d"]
    headOf := fun _ => "h"
    head := "h0"
    tagsOut := "helm-2.0\n4.1.2\n4.1.1"
    originHead := some "refs/remotes/origin/main"
    remoteBranches := ["main"]
    coStdout := fun _ => ""
    coStderr := fun _ => ""
    pullAdvances := fun _ => true
    pullTip := fun _ => "tip" }

/-- C2: `checkout_ref` first attempts a normal checkout and returns without
error (and without further git traffic) if it succeeds; on failure it fetches
tags, deepens/unshallows the clone, fetches the ref explicitly, and retries
the checkout exactly once (the trace shows exactly the two checkout
attempts); it raises an error naming the ref if and only if that retry also
fails. -/
theorem checkout_ref_spec (w : GitWorld) (ref : String) :
    (ref ∈ w.localRefs →
      checkout_ref w ref = Except.ok (checkoutEff w ref, [GitCmd.checkout ref]))
    ∧ (ref ∉ w.localRefs →
        (ref ∈ (fetchRefEff (ensure_full_history (fetchAllTagsEff w)).1 ref).localRefs →
          checkout_ref w ref = Except.ok
            (checkoutEff (fetchRefEff (ensure_full_history (fetchAllTagsEff w)).1 ref) ref,
              GitCmd.checkout ref :: GitCmd.fetchAllTags ::
                (ensure_full_history (fetchAllTagsEff w)).2
                ++ [GitCmd.fetchRef ref, GitCmd.checkout ref]))
        ∧ (ref ∉ (fetchRefEff (ensure_full_history (fetchAllTagsEff w)).1 ref).localRefs →
            ∃ msg, checkout_ref w ref = Except.error msg ∧ strContains msg ref))
    ∧ ((∃ msg, checkout_ref w ref = Except.error msg) ↔
        ref ∉ w.localRefs
          ∧ ref ∉ (fetchRefEff (ensure_full_history (fetchAllTagsEff w)).1 ref).localRefs) := by
  by_cases h1 : ref ∈ w.localRefs
  · refine ⟨fun _ => by simp [checkout_ref, h1], fun h => absurd h1 h, ?_⟩
    simp [checkout_ref, h1]
  · by_cases h2 : ref ∈ (fetchRefEff (ensure_full_history (fetchAllTagsEff w)).1 ref).localRefs
    · refine ⟨fun h => absurd h h1, fun _ => ⟨fun _ => by simp [checkout_ref, h1, h2], ?_⟩, ?_⟩
      · exact fun h => absurd h2 h
      · simp [checkout_ref, h1, h2]
    · refine ⟨fun h => absurd h h1, fun _ => ⟨fun h => absurd h h2, fun _ => ?_⟩, ?_⟩
      · refine ⟨"Failed to checkout ref \x27" ++ ref ++ "\x27.\n" ++ "stdout:\n"
            ++ (fetchRefEff (ensure_full_history (fetchAllTagsEff w)).1 ref).coStdout ref ++ "\n"
            ++ "stderr:\n"
            ++ (fetchRefEff (ensure_full_history (fetchAllTagsEff w)).1 ref).coStderr ref
            ++ "\n", by simp [checkout_ref, h1, h2], ?_⟩
        exact ⟨("Failed to checkout ref \x27").data,
          ("\x27.\n" ++ "stdout:\n"
            ++ (fetchRefEff (ensure_full_history (fetchAllTagsEff w)).1 ref).coStdout ref ++ "\n"
            ++ "stderr:\n"
            ++ (fetchRefEff (ensure_full_history (fetchAllTagsEff w)).1 ref).coStderr ref
            ++ "\n").data,
          by simp [string_data_append]⟩
      · simp [checkout_ref, h1, h2]

/-- Witness: the fast path of `checkout_ref` on a ref that is already
checkoutable, and the double-failure path on a ref nobody has. -/
theorem checkout_ref_spec_witness :
    ("a" ∈ sampleWorld.localRefs
        ∧ checkout_ref sampleWorld "a"
            = Except.ok (checkoutEff sampleWorld "a", [GitCmd.checkout "a"]))
      ∧ ("zz" ∉ sampleWorld.localRefs
        ∧ ∃ msg, checkout_ref sampleWorld "zz" = Except.error msg ∧ strContains msg "zz") :=
  ⟨⟨by decide, (checkout_ref_spec sampleWorld "a").1 (by decide)⟩,
   ⟨by decide, ((checkout_ref_spec sampleWorld "zz").2.1 (by decide)).2 (by decide)⟩⟩

theorem find_first_max {α : Type} (p : α → Bool) (R : α → α → Prop) :
    ∀ (l : List α), l.Pairwise R → ∀ t, l.find? p = some t →
      ∀ u ∈ l, p u = true → R t u ∨ u = t := by
  intro l
  induction l with
  | nil => simp
  | cons x xs ih =>
    intro hp t ht u hu hpu
    rcases List.pairwise_cons.mp hp with ⟨hx, hxs⟩
    by_cases hpx : p x = true
    · have : t = x := by simp [List.find?_cons, hpx] at ht; exact ht.symm
      subst this
      rcases List.mem_cons.mp hu with rfl | hu2
      · exact Or.inr rfl
      · exact Or.inl (hx u hu2)
    · simp [List.find?_cons, hpx] at ht
      rcases List.mem_cons.mp hu with rfl | hu2
      · exact absurd hpu hpx
      · exact ih hxs t ht u hu2 hpu

/-- C3: on the (descending version-sorted) output of
`git tag -l --sort=-v:refname`, `get_latest_tag` returns a strictly
semver-shaped tag that is maximal under the sort order among all
semver-shaped tags, and raises exactly when no tag has that shape.  `ge` is
the order git sorted the output by: `ge a b` means `a` was sorted at or
before `b`. -/
theorem get_latest_tag_spec (ge : String → String → Prop) (tagsOut : String)
    (hsorted : (tagCandidates tagsOut).Pairwise ge) :
    (∀ t, get_latest_tag tagsOut = Except.ok t →
      isSemverTag t = true
        ∧ t ∈ tagCandidates tagsOut
        ∧ ∀ u ∈ tagCandidates tagsOut,
            isSemverTag u = true → ge t u ∨ u = t)
    ∧ ((∃ e, get_latest_tag tagsOut = Except.error e)
        ↔ ∀ u ∈ tagCandidates tagsOut, isSemverTag u = false) := by
  constructor
  · intro t ht
    unfold get_latest_tag at ht
    cases hf : (tagCandidates tagsOut).find? isSemverTag with
    | none => rw [hf] at ht; exact absurd ht (by simp)
    | some t' =>
      rw [hf] at ht
      have : t' = t := by simpa using ht
      subst this
      exact ⟨List.find?_some hf, List.mem_of_find?_eq_some hf,
        find_first_max isSemverTag ge _ hsorted t' hf⟩
  · unfold get_latest_tag
    cases hf : (tagCandidates tagsOut).find? isSemverTag with
    | none =>
      simp only [hf]
      constructor
      · intro _ u hu
        have := List.find?_eq_none.mp hf u hu
        simpa using this
      · intro _; exact ⟨"No valid release tag found", rfl⟩
    | some t' =>
      simp only [hf]
      constructor
      · rintro ⟨e, he⟩; exact absurd he (by simp)
      · intro hall
        have h1 := List.find?_some hf
        have h2 := List.mem_of_find?_eq_some hf
        have := hall t' h2
        rw [h1] at this
        exact absurd this (by simp)

/-- Witness: on the sample tag listing `helm-2.0`, `4.1.2`, `4.1.1`, the
selected tag is semver-shaped, listed, and maximal under the sort order. -/
theorem get_latest_tag_spec_witness :
    isSemverTag "4.1.2" = true
      ∧ "4.1.2" ∈ tagCandidates "helm-2.0\n4.1.2\n4.1.1"
      ∧ ∀ u ∈ tagCandidates "helm-2.0\n4.1.2\n4.1.1",
          isSemverTag u = true → (fun _ _ => True) "4.1.2" u ∨ u = "4.1.2" :=
  (get_latest_tag_spec (fun _ _ => True) "helm-2.0\n4.1.2\n4.1.1"
    (by simp [List.pairwise_iff_forall_sublist])).1 "4.1.2" (by rfl)

theorem checkoutTargets_append (a b : List GitCmd) :
    checkoutTargets (a ++ b) = checkoutTargets a ++ checkoutTargets b := by
  induction a with
  | nil => rfl
  | cons x t ih => cases x <;> simp [checkoutTargets, ih]

theorem ensure_full_history_no_checkout (w : GitWorld) :
    checkoutTargets (ensure_full_history w).2 = [] := by
  unfold ensure_full_history
  by_cases h1 : w.shallow
  · by_cases h2 : w.unshallowWorks
    · simp [h1, h2, checkoutTargets]
    · simp [h1, h2, checkoutTargets]
  · simp [h1, checkoutTargets]

theorem checkout_ref_targets (w : GitWorld) (ref : String) (pr : GitWorld × List GitCmd)
    (h : checkout_ref w ref = Except.ok pr) :
    checkoutTargets pr.2 ≠ [] ∧ ∀ t ∈ checkoutTargets pr.2, t = ref := by
  unfold checkout_ref at h
  by_cases h1 : ref ∈ w.localRefs
  · simp only [h1, if_true] at h
    obtain rfl : (checkoutEff w ref, [GitCmd.checkout ref]) = pr := by simpa using h
    simp [checkoutTargets]
  · simp only [h1, if_false] at h
    by_cases h2 : ref ∈ (fetchRefEff (ensure_full_history (fetchAllTagsEff w)).1 ref).localRefs
    · simp only [h2, if_true] at h
      obtain rfl : (checkoutEff (fetchRefEff (ensure_full_history (fetchAllTagsEff w)).1 ref) ref,
          GitCmd.checkout ref :: GitCmd.fetchAllTags ::
            (ensure_full_history (fetchAllTagsEff w)).2
            ++ [GitCmd.fetchRef ref, GitCmd.checkout ref]) = pr := by simpa using h
      simp [checkoutTargets, checkoutTargets_append, ensure_full_history_no_checkout]
    · simp [h2] at h

theorem update_repo_targets (w : GitWorld) (b : String) (pr : GitWorld × List GitCmd)
    (h : update_repo w b = Except.ok pr) :
    checkoutTargets pr.2 ≠ [] ∧ ∀ t ∈ checkoutTargets pr.2, t = b := by
  unfold update_repo at h
  by_cases h1 : b ∈ (ensure_full_history (fetchAllTagsEff w)).1.localRefs
  · simp only [h1, if_true] at h
    obtain rfl : (pullEff (checkoutEff (ensure_full_history (fetchAllTagsEff w)).1 b) b,
        GitCmd.fetchAllTags :: (ensure_full_history (fetchAllTagsEff w)).2
          ++ [GitCmd.checkout b, GitCmd.pull]) = pr := by simpa using h
    simp [checkoutTargets, checkoutTargets_append, ensure_full_history_no_checkout]
  · simp only [h1, if_false] at h
    by_cases h2 : ("origin/" ++ b) ∈ (ensure_full_history (fetchAllTagsEff w)).1.localRefs
    · simp only [h2, if_true] at h
      obtain rfl := by exact (by simpa using h :
        (pullEff { (ensure_full_history (fetchAllTagsEff w)).1 with
            head := (ensure_full_history (fetchAllTagsEff w)).1.headOf ("origin/" ++ b) } b,
          GitCmd.fetchAllTags :: (ensure_full_history (fetchAllTagsEff w)).2
            ++ [GitCmd.checkout b, GitCmd.checkoutB b ("origin/" ++ b), GitCmd.pull]) = pr)
      simp [checkoutTargets, checkoutTargets_append, ensure_full_history_no_checkout]
    · simp [h2] at h

/-- C1: the resolution policies of `main` are dispatched with precedence
`--sha`, then `--latest-tag`, then branch mode (the three antecedents below
are mutually exclusive and cover every invocation); each policy checks out
exactly the ref it names (the explicit ref, the latest semver tag, or the
selected branch), and the reported SHA is HEAD of the final checkout. -/
theorem pin_policy_spec (args : Args) (w : GitWorld) :
    (truthy args.sha = true →
      ∀ res, mainResolve args w = Except.ok res →
        checkoutTargets res.trace ≠ []
          ∧ (∀ t ∈ checkoutTargets res.trace, t = args.sha.getD "")
          ∧ res.sha = res.world.head)
    ∧ (truthy args.sha = false → args.latestTag = true →
      ∀ res, mainResolve args w = Except.ok res →
        ∃ tag, get_latest_tag (ensure_full_history (fetchAllTagsEff w)).1.tagsOut = Except.ok tag
          ∧ checkoutTargets res.trace ≠ []
          ∧ (∀ t ∈ checkoutTargets res.trace, t = tag)
          ∧ res.branchOrTag = tag
          ∧ res.sha = res.world.head)
    ∧ (truthy args.sha = false → args.latestTag = false →
      ∀ res, mainResolve args w = Except.ok res →
        ∃ b, resolvedBranch args w = Except.ok b
          ∧ checkoutTargets res.trace ≠ []
          ∧ (∀ t ∈ checkoutTargets res.trace, t = b)
          ∧ res.branchOrTag = b
          ∧ res.sha = res.world.head) := by
  refine ⟨fun hsha res hres => ?_, fun hsha htag res hres => ?_, fun hsha htag res hres => ?_⟩
  · unfold mainResolve at hres
    simp only [hsha, if_true] at hres
    cases hco : checkout_ref (ensure_full_history (fetchAllTagsEff w)).1 (args.sha.getD "") with
    | error e => rw [hco] at hres; exact absurd hres (by simp)
    | ok pr =>
      rw [hco] at hres
      obtain rfl : res = ⟨pr.1, pr.1.head, pyTake (args.sha.getD "") 12,
          GitCmd.fetchAllTags :: (ensure_full_history (fetchAllTagsEff w)).2 ++ pr.2⟩ := by
        cases pr; simpa using hres.symm
      obtain ⟨hne, hall⟩ := checkout_ref_targets _ _ _ hco
      refine ⟨?_, ?_, rfl⟩
      · simpa [checkoutTargets, checkoutTargets_append, ensure_full_history_no_checkout]
      · intro t ht
        apply hall
        simpa [checkoutTargets, checkoutTargets_append,
          ensure_full_history_no_checkout] using ht
  · unfold mainResolve at hres
    simp only [hsha, htag, Bool.false_eq_true, if_false, if_true] at hres
    cases hlt : get_latest_tag (ensure_full_history (fetchAllTagsEff w)).1.tagsOut with
    | error e => rw [hlt] at hres; exact absurd hres (by simp)
    | ok tag =>
      simp only [hlt] at hres
      cases hco : checkout_ref (ensure_full_history (fetchAllTagsEff w)).1 tag with
      | error e => rw [hco] at hres; exact absurd hres (by simp)
      | ok pr =>
        rw [hco] at hres
        obtain rfl : res = ⟨pr.1, pr.1.head, tag,
            GitCmd.fetchAllTags :: (ensure_full_history (fetchAllTagsEff w)).2 ++ pr.2⟩ := by
          cases pr; simpa using hres.symm
        obtain ⟨hne, hall⟩ := checkout_ref_targets _ _ _ hco
        refine ⟨tag, rfl, ?_, ?_, rfl, rfl⟩
        · simpa [checkoutTargets, checkoutTargets_append, ensure_full_history_no_checkout]
        · intro t ht
          apply hall
          simpa [checkoutTargets, checkoutTargets_append,
            ensure_full_history_no_checkout] using ht
  · unfold mainResolve at hres
    simp only [hsha, htag, Bool.false_eq_true, if_false] at hres
    cases hrb : resolvedBranch args w with
    | error e => rw [hrb] at hres; exact absurd hres (by simp)
    | ok b =>
      simp only [hrb] at hres
      cases hur : update_repo w b with
      | error e => rw [hur] at hres; exact absurd hres (by simp)
      | ok pr =>
        rw [hur] at hres
        obtain rfl : res = ⟨pr.1, pr.1.head, b, pr.2⟩ := by
          cases pr; simpa using hres.symm
        obtain ⟨hne, hall⟩ := update_repo_targets _ _ _ hur
        exact ⟨b, rfl, hne, hall, rfl, rfl⟩

def argsSha : Args := ⟨some "a", false, none, 100, false⟩

def argsTag : Args := ⟨none, true, none, 100, false⟩

def argsBranch : Args := ⟨none, false, some "main", 0, false⟩

def resSha : PinResult :=
  ⟨checkoutEff (fetchAllTagsEff sampleWorld) "a", "h", "a",
    [GitCmd.fetchAllTags, GitCmd.checkout "a"]⟩

def resTag : PinResult :=
  ⟨checkoutEff (fetchAllTagsEff sampleWorld) "4.1.2", "h", "4.1.2",
    [GitCmd.fetchAllTags, GitCmd.checkout "4.1.2"]⟩

def resBranch : PinResult :=
  ⟨pullEff (checkoutEff (fetchAllTagsEff sampleWorld) "main") "main", "tip", "main",
    [GitCmd.fetchAllTags, GitCmd.checkout "main", GitCmd.pull]⟩

/-- Witness: all three policies exercised on the sample world. -/
theorem pin_policy_spec_witness :
    (mainResolve argsSha sampleWorld = Except.ok resSha
      ∧ checkoutTargets resSha.trace ≠ []
      ∧ (∀ t ∈ checkoutTargets resSha.trace, t = argsSha.sha.getD "")
      ∧ resSha.sha = resSha.world.head)
    ∧ (mainResolve argsTag sampleWorld = Except.ok resTag
      ∧ ∃ tag, get_latest_tag (ensure_full_history (fetchAllTagsEff sampleWorld)).1.tagsOut
            = Except.ok tag
          ∧ checkoutTargets resTag.trace ≠ []
          ∧ (∀ t ∈ checkoutTargets resTag.trace, t = tag)
          ∧ resTag.branchOrTag = tag
          ∧ resTag.sha = resTag.world.head)
    ∧ (mainResolve argsBranch sampleWorld = Except.ok resBranch
      ∧ ∃ b, resolvedBranch argsBranch sampleWorld = Except.ok b
          ∧ checkoutTargets resBranch.trace ≠ []
          ∧ (∀ t ∈ checkoutTargets resBranch.trace, t = b)
          ∧ resBranch.branchOrTag = b
          ∧ resBranch.sha = resBranch.world.head) :=
  ⟨⟨by rfl, (pin_policy_spec argsSha sampleWorld).1 (by rfl) resSha (by rfl)⟩,
   ⟨by rfl, (pin_policy_spec argsTag sampleWorld).2.1 (by rfl) (by rfl) resTag (by rfl)⟩,
   ⟨by rfl, (pin_policy_spec argsBranch sampleWorld).2.2 (by rfl) (by rfl) resBranch (by rfl)⟩⟩

/-- C4: the `--scan-limit` option is parsed (`type=int, default=100`) but
never read by the resolution logic: two invocations differing only in
`--scan-limit` behave identically, and a branch-mode run restricted to a
scan budget of 0 still resolves the branch tip — no commit scanning exists
in the code. -/
theorem scan_limit_unused :
    (∀ (args : Args) (w : GitWorld) (s1 s2 : Int),
      mainResolve { args with scanLimit := s1 } w
        = mainResolve { args with scanLimit := s2 } w)
    ∧ mainResolve ⟨none, false, some "main", 0, false⟩ sampleWorld
        = mainResolve ⟨none, false, some "main", 100, false⟩ sampleWorld
    ∧ mainResolve ⟨none, false, some "main", 0, false⟩ sampleWorld
        = Except.ok ⟨pullEff (checkoutEff (fetchAllTagsEff sampleWorld) "main") "main",
            "tip", "main", [GitCmd.fetchAllTags, GitCmd.checkout "main", GitCmd.pull]⟩ :=
  ⟨fun _ _ _ _ => rfl, rfl, by rfl⟩

end PinTool

namespace Pyjson

/-- Hexadecimal digit character, lowercase, as `%04x` formatting produces. -/
def hexDigitChar (n : Nat) : Char :=
  if n < 10 then Char.ofNat (48 + n) else Char.ofNat (87 + n)

/-- Four hex digits of `n`, most significant first (`\uXXXX` payload). -/
def hexQuad (n : Nat) : List Char :=
  [hexDigitChar (n / 0x1000 % 0x10), hexDigitChar (n / 0x100 % 0x10), hexDigitChar (n / 0x10 % 0x10), hexDigitChar (n % 0x10)]

/-- Model of CPython's `json` ASCII string escaping
(`py_encode_basestring_ascii`, used by `json.dumps` with the default
`ensure_ascii=True`): named escapes for the control characters that have
them, backslash and quote escaped, printable ASCII kept literal, everything
else as `\uXXXX`, with surrogate pairs above U+FFFF. -/
def escapeChar (c : Char) : List Char :=
  if c = '"' then ['\\', '"']
  else if c = '\\' then ['\\', '\\']
  else if c = '\x08' then ['\\', 'b']
  else if c = '\x0c' then ['\\', 'f']
  else if c = '\n' then ['\\', 'n']
  else if c = '\r' then ['\\', 'r']
  else if c = '\t' then ['\\', 't']
  else if 0x20 ≤ c.toNat ∧ c.toNat ≤ 0x7e then [c]
  else if c.toNat < 0x10000 then '\\' :: 'u' :: hexQuad c.toNat
  else ('\\' :: 'u' :: hexQuad (0xd800 + (c.toNat - 0x10000) / 0x400))
    ++ ('\\' :: 'u' :: hexQuad (0xdc00 + (c.toNat - 0x10000) % 0x400))

def escapeList : List Char → List Char
  | [] => []
  | c :: r => escapeChar c ++ escapeList r

/-- A JSON string literal for `s`, as `json.dumps` emits it. -/
def dumpString (s : String) : String :=
  "\"" ++ String.mk (escapeList s.data) ++ "\""

/-- One `"key": "value"` member (the `': '` item separator of `indent=2`). -/
def dumpItem (kv : String × String) : String :=
  dumpString kv.1 ++ ": " ++ dumpString kv.2

/-- The members joined by the `',' + newline + indent` separator that
`json.dumps(..., indent=2)` uses at nesting depth 1. -/
def joinItems : List (String × String) → String
  | [] => ""
  | [kv] => dumpItem kv
  | kv :: rest => dumpItem kv ++ ",\n  " ++ joinItems rest

/-- Model of `json.dumps(data, indent=2)` for a flat dict of strings (the
only shape `write_version_matrix` serialises). -/
def dumps (d : List (String × String)) : String :=
  match d with
  | [] => "\x7b\x7d"
  | _ => "\x7b\n  " ++ joinItems d ++ "\n\x7d"

/-- Value of one hex digit, accepting both cases as `json.loads` does. -/
def hexCharVal (c : Char) : Option Nat :=
  if '0' ≤ c ∧ c ≤ '9' then some (c.toNat - 48)
  else if 'a' ≤ c ∧ c ≤ 'f' then some (c.toNat - 87)
  else if 'A' ≤ c ∧ c ≤ 'F' then some (c.toNat - 55)
  else none

def hexQuadVal (a b c d : Char) : Option Nat :=
  match hexCharVal a, hexCharVal b, hexCharVal c, hexCharVal d with
  | some va, some vb, some vc, some vd => some (va * 0x1000 + vb * 0x100 + vc * 0x10 + vd)
  | _, _, _, _ => none

/-- Decoding of one backslash escape of `json.loads` (`scanstring`, strict
mode), from after the backslash: the named escapes, `\uXXXX`, and
surrogate-pair recombination.  One divergence: CPython accepts a lone
surrogate escape and builds a non-scalar `str`; such a character does not
exist in Lean, and the serialiser never emits one, so the model rejects
it. -/
def parseEscape : List Char → Option (Char × List Char)
  | [] => none
  | e :: r1 =>
    if e = '"' then some ('"', r1)
    else if e = '\\' then some ('\\', r1)
    else if e = '/' then some ('/', r1)
    else if e = 'b' then some ('\x08', r1)
    else if e = 'f' then some ('\x0c', r1)
    else if e = 'n' then some ('\n', r1)
    else if e = 'r' then some ('\r', r1)
    else if e = 't' then some ('\t', r1)
    else if e = 'u' then
      match r1 with
      | a :: b :: c2 :: d :: r2 =>
        match hexQuadVal a b c2 d with
        | none => none
        | some n =>
          if 0xd800 ≤ n ∧ n ≤ 0xdbff then
            match r2 with
            | s1 :: s2 :: a2 :: b2 :: c3 :: d2 :: r3 =>
              if s1 = '\\' ∧ s2 = 'u' then
                match hexQuadVal a2 b2 c3 d2 with
                | none => none
                | some m =>
                  if 0xdc00 ≤ m ∧ m ≤ 0xdfff then
                    some (Char.ofNat (0x10000 + (n - 0xd800) * 0x400 + (m - 0xdc00)), r3)
                  else none
              else none
            | _ => none
          else if 0xdc00 ≤ n ∧ n ≤ 0xdfff then none
          else some (Char.ofNat n, r2)
      | _ => none
    else none

/-- String-body scanning of `json.loads`, from after the opening quote:
literal characters up to the closing quote, escapes decoded by
`parseEscape`; raw control characters are rejected (strict mode).  `fuel`
only bounds the recursion depth; every step consumes at least one input
character, so any `fuel` larger than the input length is ample. -/
def unescapeCharsF : Nat → List Char → Option (List Char × List Char)
  | 0, _ => none
  | _ + 1, [] => none
  | fuel + 1, c :: r =>
    if c = '"' then some ([], r)
    else if c = '\\' then
      match parseEscape r with
      | none => none
      | some (d, r2) => (unescapeCharsF fuel r2).map (fun p => (d :: p.1, p.2))
    else if c.toNat < 0x20 then none
    else (unescapeCharsF fuel r).map (fun p => (c :: p.1, p.2))

/-- A JSON string literal: an opening quote followed by the scanned body. -/
def parseJString (cs : List Char) : Option (String × List Char) :=
  match cs with
  | '"' :: r => (unescapeCharsF (r.length + 1) r).map (fun p => (String.mk p.1, p.2))
  | _ => none

/-- JSON insignificant whitespace (RFC 8259: space, tab, LF, CR). -/
def skipWs : List Char → List Char
  | [] => []
  | c :: r => if c = ' ' || c = '\t' || c = '\n' || c = '\r' then skipWs r else c :: r

/-- The member list of an object whose values are strings, from the first
key to the closing brace; `fuel` bounds the number of members and only ever
decreases by one per parsed member. -/
def parseMembers : Nat → List Char → Option (List (String × String) × List Char)
  | 0, _ => none
  | Nat.succ fuel, cs =>
    match parseJString cs with
    | none => none
    | some (k, r1) =>
      match skipWs r1 with
      | [] => none
      | c :: r2 =>
        if c = ':' then
          match parseJString (skipWs r2) with
          | none => none
          | some (v, r3) =>
            match skipWs r3 with
            | [] => none
            | c2 :: r4 =>
              if c2 = ',' then
                (parseMembers fuel (skipWs r4)).map (fun p => ((k, v) :: p.1, p.2))
              else if c2 = '\x7d' then some ([(k, v)], r4)
              else none
        else none

/-- A top-level object of string members. -/
def parseTopObj (cs : List Char) : Option (List (String × String) × List Char) :=
  match skipWs cs with
  | [] => none
  | c :: r =>
    if c = '\x7b' then
      match skipWs r with
      | [] => none
      | c2 :: r2 =>
        if c2 = '\x7d' then some ([], r2)
        else parseMembers ((c2 :: r2).length + 1) (c2 :: r2)
    else none

/-- Model of `json.loads` on the fragment `write_version_matrix` emits: a
single object whose values are strings, with nothing but whitespace after
it.  (`json.loads` parses arbitrary JSON values; the written manifest is
exactly this shape.) -/
def loads (s : String) : Option (List (String × String)) :=
  match parseTopObj s.data with
  | some (d, rest) => if skipWs rest = [] then some d else none
  | none => none

/-- Model of the JSON text written by `write_version_matrix` (line 169):
`json.dumps(data, indent=2) + "\n"`. -/
def writeVersionMatrixJson (data : List (String × String)) : String :=
  dumps data ++ "\n"

/-- The `data` dict built by `main` under `--write-version`
(lines 269-279), in insertion order. -/
def versionMatrixData (sha supersetVersion branchOrTag pythonVersion nodeVersion
    npmVersion appVersion buildTimestamp buildHost : String) : List (String × String) :=
  [("superset_sha", sha),
   ("superset_version", supersetVersion),
   ("superset_branch", branchOrTag),
   ("python_version", pythonVersion),
   ("node_version", nodeVersion),
   ("npm_version", npmVersion),
   ("app_version", appVersion),
   ("build_timestamp", buildTimestamp),
   ("build_host", buildHost)]

theorem char_toNat_valid (c : Char) :
    c.toNat < 0xd800 ∨ (0xdfff < c.toNat ∧ c.toNat < 0x110000) := by
  rcases c.valid with h | ⟨h1, h2⟩
  · left; exact h
  · right; exact ⟨h1, h2⟩

theorem hexCharVal_hexDigitChar (d : Nat) (h : d < 16) : hexCharVal (hexDigitChar d) = some d := by
  interval_cases d <;> decide

theorem hexQuadVal_hexQuad (n : Nat) (h : n < 0x10000) :
    hexQuadVal (hexDigitChar (n / 0x1000 % 0x10)) (hexDigitChar (n / 0x100 % 0x10)) (hexDigitChar (n / 0x10 % 0x10))
      (hexDigitChar (n % 0x10)) = some n := by
  have h1 : n / 0x1000 % 16 < 16 := Nat.mod_lt _ (by norm_num)
  have h2 : n / 0x100 % 16 < 16 := Nat.mod_lt _ (by norm_num)
  have h3 : n / 0x10 % 16 < 16 := Nat.mod_lt _ (by norm_num)
  have h4 : n % 16 < 16 := Nat.mod_lt _ (by norm_num)
  rw [hexQuadVal, hexCharVal_hexDigitChar _ h1, hexCharVal_hexDigitChar _ h2,
    hexCharVal_hexDigitChar _ h3, hexCharVal_hexDigitChar _ h4]
  simp only [Option.some.injEq]
  omega

theorem parseEscape_u_step (a b c2 d : Char) (r2 : List Char) :
    parseEscape ('u' :: a :: b :: c2 :: d :: r2)
      = match hexQuadVal a b c2 d with
        | none => none
        | some n =>
          if 0xd800 ≤ n ∧ n ≤ 0xdbff then
            match r2 with
            | s1 :: s2 :: a2 :: b2 :: c3 :: d2 :: r3 =>
              if s1 = '\\' ∧ s2 = 'u' then
                match hexQuadVal a2 b2 c3 d2 with
                | none => none
                | some m =>
                  if 0xdc00 ≤ m ∧ m ≤ 0xdfff then
                    some (Char.ofNat (0x10000 + (n - 0xd800) * 0x400 + (m - 0xdc00)), r3)
                  else none
              else none
            | _ => none
          else if 0xdc00 ≤ n ∧ n ≤ 0xdfff then none
          else some (Char.ofNat n, r2) := by
  rfl

theorem parseEscape_u (n : Nat) (rest : List Char) (h9 : n < 0x10000)
    (hns1 : ¬ (0xd800 ≤ n ∧ n ≤ 0xdbff)) (hns2 : ¬ (0xdc00 ≤ n ∧ n ≤ 0xdfff)) :
    parseEscape ('u' :: (hexQuad n ++ rest)) = some (Char.ofNat n, rest) := by
  rw [hexQuad]
  show parseEscape ('u' :: hexDigitChar (n / 0x1000 % 0x10) :: hexDigitChar (n / 0x100 % 0x10)
    :: hexDigitChar (n / 0x10 % 0x10) :: hexDigitChar (n % 0x10) :: rest) = _
  rw [parseEscape_u_step, hexQuadVal_hexQuad _ h9]
  dsimp only
  rw [if_neg hns1, if_neg hns2]

theorem parseEscape_surrogate (v : Nat) (rest : List Char)
    (hlo : 0x10000 ≤ v) (hhi : v < 0x110000) :
    parseEscape ('u' :: (hexQuad (0xd800 + (v - 0x10000) / 0x400)
        ++ ('\\' :: 'u' :: hexQuad (0xdc00 + (v - 0x10000) % 0x400)) ++ rest))
      = some (Char.ofNat v, rest) := by
  have hmod : (v - 0x10000) % 0x400 < 0x400 := Nat.mod_lt _ (by norm_num)
  have hdiv : (v - 0x10000) / 0x400 < 0x400 := by omega
  have hn1 : 0xd800 + (v - 0x10000) / 0x400 < 0x10000 := by omega
  have hn2 : 0xdc00 + (v - 0x10000) % 0x400 < 0x10000 := by omega
  have hs1 : 0xd800 ≤ 0xd800 + (v - 0x10000) / 0x400
      ∧ 0xd800 + (v - 0x10000) / 0x400 ≤ 0xdbff := by omega
  have hs2 : 0xdc00 ≤ 0xdc00 + (v - 0x10000) % 0x400
      ∧ 0xdc00 + (v - 0x10000) % 0x400 ≤ 0xdfff := by omega
  rw [hexQuad, hexQuad]
  show parseEscape ('u'
    :: hexDigitChar ((0xd800 + (v - 0x10000) / 0x400) / 0x1000 % 0x10)
    :: hexDigitChar ((0xd800 + (v - 0x10000) / 0x400) / 0x100 % 0x10)
    :: hexDigitChar ((0xd800 + (v - 0x10000) / 0x400) / 0x10 % 0x10)
    :: hexDigitChar ((0xd800 + (v - 0x10000) / 0x400) % 0x10)
    :: ('\\' :: 'u'
      :: hexDigitChar ((0xdc00 + (v - 0x10000) % 0x400) / 0x1000 % 0x10)
      :: hexDigitChar ((0xdc00 + (v - 0x10000) % 0x400) / 0x100 % 0x10)
      :: hexDigitChar ((0xdc00 + (v - 0x10000) % 0x400) / 0x10 % 0x10)
      :: hexDigitChar ((0xdc00 + (v - 0x10000) % 0x400) % 0x10) :: rest)) = _
  rw [parseEscape_u_step, hexQuadVal_hexQuad _ hn1]
  dsimp only
  rw [if_pos hs1]
  rw [if_pos (by decide : ('\\' : Char) = '\\' ∧ ('u' : Char) = 'u'),
    hexQuadVal_hexQuad _ hn2]
  dsimp only
  rw [if_pos hs2]
  have harg : 0x10000 + (0xd800 + (v - 0x10000) / 0x400 - 0xd800) * 0x400
      + (0xdc00 + (v - 0x10000) % 0x400 - 0xdc00) = v := by omega
  rw [harg]

theorem unescapeF_slash_step (fuel : Nat) (r : List Char) :
    unescapeCharsF (fuel + 1) ('\\' :: r)
      = match parseEscape r with
        | none => none
        | some (d, r2) => (unescapeCharsF fuel r2).map (fun p => (d :: p.1, p.2)) := by
  rfl

theorem unescapeF_escapeChar (fuel : Nat) (c : Char) (rest : List Char) :
    unescapeCharsF (fuel + 1) (escapeChar c ++ rest)
      = (unescapeCharsF fuel rest).map (fun p => (c :: p.1, p.2)) := by
  by_cases h1 : c = '"'
  · subst h1; rfl
  by_cases h2 : c = '\\'
  · subst h2; rfl
  by_cases h3 : c = '\x08'
  · subst h3; rfl
  by_cases h4 : c = '\x0c'
  · subst h4; rfl
  by_cases h5 : c = '\n'
  · subst h5; rfl
  by_cases h6 : c = '\r'
  · subst h6; rfl
  by_cases h7 : c = '\t'
  · subst h7; rfl
  by_cases h8 : 0x20 ≤ c.toNat ∧ c.toNat ≤ 0x7e
  · have he : escapeChar c = [c] := by
      unfold escapeChar
      rw [if_neg h1, if_neg h2, if_neg h3, if_neg h4, if_neg h5, if_neg h6, if_neg h7,
        if_pos h8]
    have hq : ¬ (c.toNat < 0x20) := by omega
    rw [he]
    show unescapeCharsF (fuel + 1) (c :: rest) = _
    rw [unescapeCharsF.eq_def]
    dsimp only
    rw [if_neg h1, if_neg h2, if_neg hq]
  by_cases h9 : c.toNat < 0x10000
  · have hv := char_toNat_valid c
    have hns1 : ¬ (0xd800 ≤ c.toNat ∧ c.toNat ≤ 0xdbff) := by
      rcases hv with h | h <;> omega
    have hns2 : ¬ (0xdc00 ≤ c.toNat ∧ c.toNat ≤ 0xdfff) := by
      rcases hv with h | h <;> omega
    have he : escapeChar c = '\\' :: 'u' :: hexQuad c.toNat := by
      unfold escapeChar
      rw [if_neg h1, if_neg h2, if_neg h3, if_neg h4, if_neg h5, if_neg h6, if_neg h7,
        if_neg h8, if_pos h9]
    rw [he]
    show unescapeCharsF (fuel + 1) ('\\' :: ('u' :: (hexQuad c.toNat ++ rest))) = _
    rw [unescapeF_slash_step, parseEscape_u c.toNat rest h9 hns1 hns2]
    dsimp only
    rw [Char.ofNat_toNat]
  · have hv := char_toNat_valid c
    have hcv : c.toNat < 0x110000 := by rcases hv with h | h <;> omega
    have hge : 0x10000 ≤ c.toNat := by omega
    have he : escapeChar c = ('\\' :: 'u' :: hexQuad (0xd800 + (c.toNat - 0x10000) / 0x400))
        ++ ('\\' :: 'u' :: hexQuad (0xdc00 + (c.toNat - 0x10000) % 0x400)) := by
      unfold escapeChar
      rw [if_neg h1, if_neg h2, if_neg h3, if_neg h4, if_neg h5, if_neg h6, if_neg h7,
        if_neg h8, if_neg h9]
    rw [he]
    show unescapeCharsF (fuel + 1)
      ('\\' :: ('u' :: (hexQuad (0xd800 + (c.toNat - 0x10000) / 0x400)
        ++ ('\\' :: 'u' :: hexQuad (0xdc00 + (c.toNat - 0x10000) % 0x400)) ++ rest))) = _
    rw [unescapeF_slash_step, parseEscape_surrogate c.toNat rest hge hcv]
    dsimp only
    rw [Char.ofNat_toNat]

theorem unescapeF_escapeList (l : List Char) (rest : List Char) :
    ∀ fuel, l.length ≤ fuel →
      unescapeCharsF (fuel + 1) (escapeList l ++ '"' :: rest) = some (l, rest) := by
  induction l with
  | nil =>
    intro fuel _
    rw [escapeList, List.nil_append, unescapeCharsF.eq_def]
    dsimp only
    rw [if_pos rfl]
  | cons c t ih =>
    intro fuel hfuel
    cases fuel with
    | zero => simp at hfuel
    | succ f =>
      rw [escapeList, List.append_assoc, unescapeF_escapeChar,
        ih f (by simp only [List.length_cons] at hfuel; omega)]
      rfl

theorem escapeChar_length_pos (c : Char) : 0 < (escapeChar c).length := by
  unfold escapeChar
  split_ifs <;> simp [hexQuad]

theorem escapeList_length_ge (l : List Char) : l.length ≤ (escapeList l).length := by
  induction l with
  | nil => simp [escapeList]
  | cons c t ih =>
    rw [escapeList, List.length_append]
    simp only [List.length_cons]
    have := escapeChar_length_pos c
    omega

theorem dumpString_data (s : String) :
    (dumpString s).data = '"' :: (escapeList s.data ++ ['"']) := by
  simp [dumpString, string_data_append]

theorem parseJString_dumpString (s : String) (rest : List Char) :
    parseJString ((dumpString s).data ++ rest) = some (s, rest) := by
  rw [dumpString_data]
  show parseJString ('"' :: ((escapeList s.data ++ ['"']) ++ rest)) = some (s, rest)
  rw [parseJString, List.append_assoc]
  show (unescapeCharsF (((escapeList s.data ++ '"' :: rest)).length + 1)
    (escapeList s.data ++ '"' :: rest)).map _ = _
  have hlen : s.data.length ≤ (escapeList s.data ++ '"' :: rest).length := by
    rw [List.length_append]
    have := escapeList_length_ge s.data
    omega
  rw [unescapeF_escapeList s.data rest _ hlen]
  rfl

theorem skipWs_dumpString (s : String) (tail : List Char) :
    skipWs ((dumpString s).data ++ tail) = (dumpString s).data ++ tail := by
  rw [dumpString_data]
  rfl

theorem dumpItem_data (kv : String × String) (tail : List Char) :
    (dumpItem kv).data ++ tail
      = (dumpString kv.1).data ++ (':' :: ' ' :: ((dumpString kv.2).data ++ tail)) := by
  simp [dumpItem, string_data_append]

theorem skipWs_joinItems (x : String × String) (xs : List (String × String))
    (tail : List Char) :
    skipWs ((joinItems (x :: xs)).data ++ tail) = (joinItems (x :: xs)).data ++ tail := by
  have hq : ∀ u : List Char, skipWs ('"' :: u) = '"' :: u := fun u => rfl
  cases xs with
  | nil =>
    simp only [joinItems, dumpItem, string_data_append, dumpString_data,
      List.append_assoc, List.cons_append]
    exact hq _
  | cons y ys =>
    simp only [joinItems, dumpItem, string_data_append, dumpString_data,
      List.append_assoc, List.cons_append]
    exact hq _

theorem parseMembers_joinItems (d : List (String × String)) :
    d ≠ [] → ∀ fuel : Nat, d.length ≤ fuel → ∀ r : List Char,
      parseMembers fuel ((joinItems d).data ++ '\n' :: '\x7d' :: r) = some (d, r) := by
  induction d with
  | nil => intro h; exact absurd rfl h
  | cons kv rest ih =>
    intro _ fuel hfuel r
    cases fuel with
    | zero => simp at hfuel
    | succ f =>
      cases rest with
      | nil =>
        rw [show joinItems [kv] = dumpItem kv from rfl, dumpItem_data, parseMembers,
          parseJString_dumpString]
        dsimp only
        rw [show skipWs (':' :: ' ' :: ((dumpString kv.2).data ++ '\n' :: '\x7d' :: r))
          = ':' :: ' ' :: ((dumpString kv.2).data ++ '\n' :: '\x7d' :: r) from rfl]
        dsimp only
        rw [if_pos rfl]
        rw [show skipWs (' ' :: ((dumpString kv.2).data ++ '\n' :: '\x7d' :: r))
          = skipWs ((dumpString kv.2).data ++ '\n' :: '\x7d' :: r) from rfl,
          skipWs_dumpString, parseJString_dumpString]
        dsimp only
        rw [show skipWs ('\n' :: '\x7d' :: r) = '\x7d' :: r from rfl]
        dsimp only
        rw [if_neg (by decide), if_pos rfl]
      | cons kv2 rest2 =>
        rw [show joinItems (kv :: kv2 :: rest2)
            = dumpItem kv ++ ",\n  " ++ joinItems (kv2 :: rest2) from rfl]
        rw [show (dumpItem kv ++ ",\n  " ++ joinItems (kv2 :: rest2)).data
            ++ '\n' :: '\x7d' :: r
          = (dumpItem kv).data ++ (',' :: '\n' :: ' ' :: ' '
            :: ((joinItems (kv2 :: rest2)).data ++ '\n' :: '\x7d' :: r)) from by
            simp [string_data_append]]
        rw [dumpItem_data, parseMembers, parseJString_dumpString]
        dsimp only
        rw [show skipWs (':' :: ' ' :: ((dumpString kv.2).data ++ (',' :: '\n' :: ' ' :: ' '
            :: ((joinItems (kv2 :: rest2)).data ++ '\n' :: '\x7d' :: r))))
          = ':' :: ' ' :: ((dumpString kv.2).data ++ (',' :: '\n' :: ' ' :: ' '
            :: ((joinItems (kv2 :: rest2)).data ++ '\n' :: '\x7d' :: r))) from rfl]
        dsimp only
        rw [if_pos rfl]
        rw [show skipWs (' ' :: ((dumpString kv.2).data ++ (',' :: '\n' :: ' ' :: ' '
            :: ((joinItems (kv2 :: rest2)).data ++ '\n' :: '\x7d' :: r))))
          = skipWs ((dumpString kv.2).data ++ (',' :: '\n' :: ' ' :: ' '
            :: ((joinItems (kv2 :: rest2)).data ++ '\n' :: '\x7d' :: r))) from rfl,
          skipWs_dumpString, parseJString_dumpString]
        dsimp only
        rw [show skipWs (',' :: '\n' :: ' ' :: ' '
            :: ((joinItems (kv2 :: rest2)).data ++ '\n' :: '\x7d' :: r))
          = ',' :: '\n' :: ' ' :: ' '
            :: ((joinItems (kv2 :: rest2)).data ++ '\n' :: '\x7d' :: r) from rfl]
        dsimp only
        rw [if_pos rfl]
        rw [show skipWs ('\n' :: ' ' :: ' '
            :: ((joinItems (kv2 :: rest2)).data ++ '\n' :: '\x7d' :: r))
          = skipWs ((joinItems (kv2 :: rest2)).data ++ '\n' :: '\x7d' :: r) from rfl,
          skipWs_joinItems,
          ih (by simp) f (by simp only [List.length_cons] at hfuel ⊢; omega) r]
        rfl

theorem dumpItem_data_head (x : String × String) :
    (dumpItem x).data = '"' :: (escapeList x.1.data ++ ['"']
      ++ (':' :: ' ' :: (dumpString x.2).data)) := by
  have h := dumpItem_data x []
  simp only [List.append_nil] at h
  rw [h, dumpString_data]
  simp

theorem joinItems_cons_data (x : String × String) (xs : List (String × String)) :
    ∃ t : List Char, (joinItems (x :: xs)).data = '"' :: t := by
  cases xs with
  | nil =>
    exact ⟨_, by rw [show joinItems [x] = dumpItem x from rfl, dumpItem_data_head]⟩
  | cons y ys =>
    exact ⟨_, by
      rw [show joinItems (x :: y :: ys)
          = dumpItem x ++ ",\n  " ++ joinItems (y :: ys) from rfl,
        string_data_append, string_data_append, dumpItem_data_head, List.cons_append,
        List.cons_append]⟩

theorem joinItems_length_ge (d : List (String × String)) :
    d.length ≤ (joinItems d).data.length := by
  induction d with
  | nil => simp [joinItems]
  | cons kv rest ih =>
    cases rest with
    | nil =>
      rw [show joinItems [kv] = dumpItem kv from rfl, dumpItem_data_head]
      simp
    | cons kv2 rest2 =>
      rw [show joinItems (kv :: kv2 :: rest2)
          = dumpItem kv ++ ",\n  " ++ joinItems (kv2 :: rest2) from rfl,
        string_data_append, string_data_append]
      simp only [List.length_cons, List.length_append] at ih ⊢
      omega

theorem loads_dumps (d : List (String × String)) :
    loads (dumps d ++ "\n") = some d := by
  cases d with
  | nil => rfl
  | cons kv rest =>
    obtain ⟨t, ht⟩ := joinItems_cons_data kv rest
    have hlen := joinItems_length_ge (kv :: rest)
    rw [ht] at hlen
    rw [loads]
    rw [show ((dumps (kv :: rest)) ++ "\n").data
      = '\x7b' :: '\n' :: ' ' :: ' '
        :: ((joinItems (kv :: rest)).data ++ '\n' :: '\x7d' :: ['\n']) from by
        rw [show dumps (kv :: rest)
          = "\x7b\n  " ++ joinItems (kv :: rest) ++ "\n\x7d" from rfl]
        simp [string_data_append]]
    have hm := parseMembers_joinItems (kv :: rest) (by simp)
      ((('"' : Char) :: (t ++ '\n' :: '\x7d' :: ['\n'])).length + 1)
      (by simp only [List.length_cons, List.length_append] at hlen ⊢; omega) ['\n']
    rw [ht] at hm
    rw [ht]
    simp only [List.cons_append] at hm ⊢
    rw [parseTopObj]
    rw [show skipWs ('\x7b' :: '\n' :: ' ' :: ' '
        :: '"' :: (t ++ '\n' :: '\x7d' :: ['\n']))
      = '\x7b' :: '\n' :: ' ' :: ' ' :: '"' :: (t ++ '\n' :: '\x7d' :: ['\n']) from rfl]
    dsimp only
    rw [if_pos rfl]
    rw [show skipWs ('\n' :: ' ' :: ' ' :: '"' :: (t ++ '\n' :: '\x7d' :: ['\n']))
      = '"' :: (t ++ '\n' :: '\x7d' :: ['\n']) from rfl]
    dsimp only
    rw [if_neg (by decide)]
    rw [hm]
    dsimp only
    rw [if_pos (show skipWs ['\n'] = ([] : List Char) from rfl)]

/-- C5: the JSON text written by `write_version_matrix` under
`--write-version` parses back (`json.loads`) to exactly the `data` record
passed in, and that record carries the resolved SHA under `superset_sha`
(the full string `main` obtained from `git rev-parse HEAD`, not truncated —
only the Markdown file truncates to 12 characters) together with the
toolchain versions under `python_version`, `node_version`, `npm_version`. -/
theorem version_matrix_roundtrip (sha supersetVersion branchOrTag pythonVersion
    nodeVersion npmVersion appVersion buildTimestamp buildHost : String) :
    loads (writeVersionMatrixJson (versionMatrixData sha supersetVersion branchOrTag
        pythonVersion nodeVersion npmVersion appVersion buildTimestamp buildHost))
      = some (versionMatrixData sha supersetVersion branchOrTag
        pythonVersion nodeVersion npmVersion appVersion buildTimestamp buildHost)
    ∧ (versionMatrixData sha supersetVersion branchOrTag pythonVersion nodeVersion
        npmVersion appVersion buildTimestamp buildHost).lookup "superset_sha" = some sha
    ∧ (versionMatrixData sha supersetVersion branchOrTag pythonVersion nodeVersion
        npmVersion appVersion buildTimestamp buildHost).lookup "python_version"
        = some pythonVersion
    ∧ (versionMatrixData sha supersetVersion branchOrTag pythonVersion nodeVersion
        npmVersion appVersion buildTimestamp buildHost).lookup "node_version"
        = some nodeVersion
    ∧ (versionMatrixData sha supersetVersion branchOrTag pythonVersion nodeVersion
        npmVersion appVersion buildTimestamp buildHost).lookup "npm_version"
        = some npmVersion := by
  refine ⟨loads_dumps _, ?_, ?_, ?_, ?_⟩ <;> rfl

end Pyjson

namespace RuntimeCfg

/-- Filesystem state: file contents by path (later writes shadow earlier
ones) and the set of directories known to exist. -/
structure FS where
  files : List (String × String)
  dirs : List String

/-- Contents of the file at `p`, when it exists (`Path.read_text` /
`Path.exists`). -/
def FS.read (fs : FS) (p : String) : Option String :=
  (fs.files.find? (fun kv => kv.1 == p)).map (fun kv => kv.2)

/-- Effect of `Path.write_text`. -/
def FS.write (fs : FS) (p content : String) : FS :=
  { fs with files := (p, content) :: fs.files }

/-- Effect of `Path.mkdir(exist_ok=True)`. -/
def FS.mkdir (fs : FS) (p : String) : FS :=
  { fs with dirs := p :: fs.dirs }

/-- Model of `str(path).replace("\\", "/")` (line 79): every backslash
becomes a forward slash. -/
def pathFwd (s : String) : String :=
  String.mk (s.data.map (fun c => if c = '\\' then '/' else c))

/-- Ambient inputs of `generate_config` that are not the filesystem: the
`SUPERSET_SECRET_KEY` environment variable, the package identity constants,
the branding static directory, and the value `secrets.token_hex(32)` would
produce on this run (a 64-character hex string; modelled as an arbitrary
input). -/
structure RuntimeEnv where
  supersetSecretKeyEnv : Option String
  version : String
  appName : String
  brandingStaticDir : String
  freshKey : String

/-- Python truthiness of `os.environ.get(...)`: both an unset variable and
an empty string count as absent (`if not secret_key:`). -/
def envTruthy (o : Option String) : Option String :=
  match o with
  | some s => if s = "" then none else some s
  | none => none

/-- The 77-character `=` rule used by the template's section separators. -/
def eqRule : String :=
  String.mk (List.replicate 77 '=')

/-- Literal segments of the `config_content` f-string template of
`generate_config` (runtime.py lines 82-259), split at the interpolation
points and at the phrases the checked properties quote. -/
def cfgSeg0 : String :=
  "# pyPASreporterGUI Superset Configuration\n"
  ++ "# Generated automatically - edit with care\n# Version: "

def cfgSeg1 : String :=
  "\n\nimport os\nimport warnings\nfrom pathlib import Path\n\n"
  ++ "# Suppress LocalProxy SQLAlchemy warning (known Flask-AppBuilder issue)\n"
  ++ "warnings.filterwarnings(\"ignore\", message=\".*LocalProxy.*is not mapped.*\")\n\n"
  ++ "# " ++ eqRule ++ "\n"
  ++ "# Application Identity\n"
  ++ "# " ++ eqRule ++ "\n"
  ++ "APP_NAME = \""

def cfgSeg2 : String :=
  "\"\nAPP_ICON = \"/pypasreportergui_static/logo-horiz.png\"\nFAVICONS = [\n"
  ++ "    \x7b\"href\": \"/pypasreportergui_static/favicon.png\", \"sizes\": \"16x16\", \"type\": \"image/png\"\x7d,\n"
  ++ "]\n\n"
  ++ "# " ++ eqRule ++ "\n"
  ++ "# Flask Configuration\n"
  ++ "# " ++ eqRule ++ "\n"

def cfgSeg3 : String :=
  "SECRET_KEY = \""

def cfgSeg4 : String :=
  "\"\nFLASK_USE_RELOAD = True\n\n"
  ++ "# " ++ eqRule ++ "\n"
  ++ "# Database Configuration (SQLite - no Postgres required)\n"
  ++ "# " ++ eqRule ++ "\n"

def cfgSeg5 : String :=
  "SQLALCHEMY_DATABASE_URI = \"sqlite:///"

def cfgSeg6 : String :=
  "/superset.db"

def cfgSeg7 : String :=
  "?check_same_thread=false\"\n\n"
  ++ "# " ++ eqRule ++ "\n"
  ++ "# Feature Flags\n"
  ++ "# " ++ eqRule ++ "\n"
  ++ "FEATURE_FLAGS = \x7b\n    \"ENABLE_TEMPLATE_PROCESSING\": True,\n"
  ++ "    \"DASHBOARD_NATIVE_FILTERS\": True,\n    \"DASHBOARD_CROSS_FILTERS\": True,\n"
  ++ "    \"DASHBOARD_NATIVE_FILTERS_SET\": True,\n    \"EMBEDDED_SUPERSET\": True,\n"
  ++ "    # Disable features requiring Celery/Redis\n    \"ALERT_REPORTS\": False,\n"
  ++ "    \"SCHEDULED_QUERIES\": False,\n\x7d\n\n"
  ++ "# " ++ eqRule ++ "\n"
  ++ "# Cache Configuration (Filesystem - no Redis required)\n"
  ++ "# " ++ eqRule ++ "\n"
  ++ "CACHE_CONFIG = \x7b\n    \"CACHE_TYPE\": \"FileSystemCache\",\n    \"CACHE_DIR\": \""

def cfgSeg8 : String :=
  "/cache\",\n    \"CACHE_DEFAULT_TIMEOUT\": 300,\n    \"CACHE_THRESHOLD\": 100,\n\x7d\n"
  ++ "\nDATA_CACHE_CONFIG = \x7b\n    \"CACHE_TYPE\": \"FileSystemCache\",\n"
  ++ "    \"CACHE_DIR\": \""

def cfgSeg9 : String :=
  "/data_cache\",\n    \"CACHE_DEFAULT_TIMEOUT\": 86400,  # 24 hours\n"
  ++ "    \"CACHE_THRESHOLD\": 100,\n\x7d\n\nFILTER_STATE_CACHE_CONFIG = \x7b\n"
  ++ "    \"CACHE_TYPE\": \"FileSystemCache\",\n    \"CACHE_DIR\": \""

def cfgSeg10 : String :=
  "/filter_cache\",\n    \"CACHE_DEFAULT_TIMEOUT\": 86400,\n"
  ++ "    \"CACHE_THRESHOLD\": 100,\n\x7d\n\nEXPLORE_FORM_DATA_CACHE_CONFIG = \x7b\n"
  ++ "    \"CACHE_TYPE\": \"FileSystemCache\",\n    \"CACHE_DIR\": \""

def cfgSeg11 : String :=
  "/explore_cache\",\n    \"CACHE_DEFAULT_TIMEOUT\": 86400,\n"
  ++ "    \"CACHE_THRESHOLD\": 100,\n\x7d\n\n"
  ++ "# " ++ eqRule ++ "\n"
  ++ "# Celery Configuration (Disabled - no Redis/broker required)\n"
  ++ "# " ++ eqRule ++ "\n"
  ++ "class CeleryConfig:\n    broker_url = None\n    result_backend = None\n\n"
  ++ "CELERY_CONFIG = CeleryConfig\n\n# Disable async queries (requires Celery)\n"
  ++ "SQLLAB_ASYNC_TIME_LIMIT_SEC = 0\n\n"
  ++ "# " ++ eqRule ++ "\n"
  ++ "# Security Configuration\n"
  ++ "# " ++ eqRule ++ "\n"
  ++ "WTF_CSRF_ENABLED = True\nSESSION_COOKIE_HTTPONLY = True\n"
  ++ "SESSION_COOKIE_SECURE = False  # Set True if using HTTPS\n"
  ++ "TALISMAN_ENABLED = False  # Disable for local development\n"
  ++ "CONTENT_SECURITY_POLICY_WARNING = False  # Suppress CSP warning for standalone mode\n"
  ++ "\n# " ++ eqRule ++ "\n"
  ++ "# Authentication Configuration\n"
  ++ "# " ++ eqRule ++ "\n"
  ++ "from flask_appbuilder.security.manager import AUTH_DB\n\n"
  ++ "AUTH_TYPE = AUTH_DB  # Use database authentication\n"
  ++ "AUTH_USER_REGISTRATION = False  # Disable self-registration\n\n"
  ++ "# " ++ eqRule ++ "\n"
  ++ "# Rate Limiting (Disabled - requires Redis in standard mode)\n"
  ++ "# " ++ eqRule ++ "\n"
  ++ "RATELIMIT_ENABLED = False\nRATELIMIT_STORAGE_URI = \"memory://\"\n\n"
  ++ "# " ++ eqRule ++ "\n"
  ++ "# SQL Lab Configuration\n"
  ++ "# " ++ eqRule ++ "\n"
  ++ "SQLLAB_TIMEOUT = 300\nSQL_MAX_ROW = 100000\nDISPLAY_MAX_ROW = 10000\n\n"
  ++ "# " ++ eqRule ++ "\n"
  ++ "# Upload Configuration\n"
  ++ "# " ++ eqRule ++ "\n"
  ++ "UPLOAD_FOLDER = \""

def cfgSeg12 : String :=
  "/uploads\"\n"
  ++ "ALLOWED_EXTENSIONS = \x7b\"csv\", \"xlsx\", \"xls\", \"json\", \"parquet\"\x7d\n\n"
  ++ "# " ++ eqRule ++ "\n"
  ++ "# Logging Configuration\n"
  ++ "# " ++ eqRule ++ "\n"
  ++ "LOG_LEVEL = \"INFO\"\nENABLE_TIME_ROTATE = True\nTIME_ROTATE_LOG_LEVEL = \"INFO\"\n"
  ++ "FILENAME = \""

def cfgSeg13 : String :=
  "/logs/superset.log\"\n\n"
  ++ "# " ++ eqRule ++ "\n"
  ++ "# Blueprint Registration (for custom branding)\n"
  ++ "# " ++ eqRule ++ "\n"

def cfgSeg14 : String :=
  "def FLASK_APP_MUTATOR(app):"

def cfgSeg15 : String :=
  "\n    \"\"\"Register the pyPASreporterGUI branding blueprint.\"\"\"\n    try:\n"
  ++ "        from pypasreportergui.branding.blueprint import branding_bp\n        "

def cfgSeg16 : String :=
  "app.register_blueprint(branding_bp)"

def cfgSeg17 : String :=
  "\n    except ImportError:\n        # Fallback: serve static files directly\n"
  ++ "        import os\n        branding_dir = \""

def cfgSeg18 : String :=
  "\"\n        if os.path.isdir(branding_dir):\n"
  ++ "            from flask import send_from_directory\n"
  ++ "            @app.route(\"/pypasreportergui_static/<path:filename>\")\n"
  ++ "            def pypasreportergui_static(filename):\n"
  ++ "                return send_from_directory(branding_dir, filename)\n\n"
  ++ "# " ++ eqRule ++ "\n"
  ++ "# DuckDB Configuration\n"
  ++ "# " ++ eqRule ++ "\n"
  ++ "# DuckDB is supported via duckdb-engine\n"
  ++ "# Connection string format: duckdb:///path/to/file.duckdb\n"
  ++ "# Or in-memory: duckdb:///:memory:\n\n# Default allowed database drivers\n"
  ++ "PREFERRED_DATABASES = [\n    \"DuckDB\",\n    \"SQLite\",\n    \"PostgreSQL\",\n"
  ++ "    \"MySQL\",\n]\n\n"
  ++ "# " ++ eqRule ++ "\n"
  ++ "# Additional Settings\n"
  ++ "# " ++ eqRule ++ "\n"
  ++ "SUPERSET_WEBSERVER_PORT = int(os.environ.get(\"PYPASREPORTERGUI_PORT\", 8088))\n"
  ++ "SUPERSET_WEBSERVER_TIMEOUT = 60\n\n# Enable data upload\nCSV_UPLOAD = True\n"
  ++ "EXCEL_UPLOAD = True\n\n# Prevent loading examples (faster startup)\n"
  ++ "SUPERSET_LOAD_EXAMPLES = False\n"

/-- The `config_content` string built by `generate_config`: the template with
`__version__`, `__app_name__`, the secret key, the forward-slashed home
directory and branding static directory interpolated. -/
def configContent (version appName secretKey homeDirStr brandingStaticStr : String) :
    String :=
  cfgSeg0
    ++ version
    ++ cfgSeg1
    ++ appName
    ++ cfgSeg2
    ++ cfgSeg3
    ++ secretKey
    ++ cfgSeg4
    ++ cfgSeg5
    ++ homeDirStr
    ++ cfgSeg6
    ++ cfgSeg7
    ++ homeDirStr
    ++ cfgSeg8
    ++ homeDirStr
    ++ cfgSeg9
    ++ homeDirStr
    ++ cfgSeg10
    ++ homeDirStr
    ++ cfgSeg11
    ++ homeDirStr
    ++ cfgSeg12
    ++ homeDirStr
    ++ cfgSeg13
    ++ cfgSeg14
    ++ cfgSeg15
    ++ cfgSeg16
    ++ cfgSeg17
    ++ brandingStaticStr
    ++ cfgSeg18

/-- Model of `generate_config` (runtime.py lines 50-271): early-return when
the config exists and `force` is not set; otherwise resolve the secret key
(environment variable, else persisted `.secret_key` stripped, else a fresh
key which is persisted), write the config file, and create the cache and
log directories. -/
def generate_config (env : RuntimeEnv) (fs : FS) (homeDir : String)
    (force : Bool := false) : FS × String :=
  let configPath := homeDir ++ "/superset_config.py"
  if (fs.read configPath).isSome && !force then (fs, configPath)
  else
    let p :=
      match envTruthy env.supersetSecretKeyEnv with
      | some k => (fs, k)
      | none =>
        let skPath := homeDir ++ "/.secret_key"
        match fs.read skPath with
        | some txt => (fs, pyStrip txt)
        | none => (fs.write skPath env.freshKey, env.freshKey)
    let content := configContent env.version env.appName p.2 (pathFwd homeDir)
      (pathFwd env.brandingStaticDir)
    let fs2 := (p.1).write configPath content
    let fs3 := (((((fs2.mkdir (homeDir ++ "/cache")).mkdir
      (homeDir ++ "/data_cache")).mkdir (homeDir ++ "/filter_cache")).mkdir
      (homeDir ++ "/explore_cache")).mkdir (homeDir ++ "/uploads")).mkdir
      (homeDir ++ "/logs")
    (fs3, configPath)

/-- The parts of `sys` that the frozen-mode helpers inspect: the truthiness
of `getattr(sys, "frozen", False)` and `sys._MEIPASS` when present. -/
structure SysState where
  frozenAttrTruthy : Bool
  meipass : Option String

/-- Model of `is_frozen` (lines 274-276). -/
def is_frozen (sys : SysState) : Bool :=
  sys.frozenAttrTruthy && sys.meipass.isSome

/-- Model of `get_frozen_base_path` (lines 279-287); `moduleParentParent`
stands for `Path(__file__).parent.parent`.  The `getD` default is never
used: the `is_frozen` guard guarantees `_MEIPASS` is present. -/
def get_frozen_base_path (sys : SysState) (moduleParentParent : String) : String :=
  if is_frozen sys then sys.meipass.getD "" else moduleParentParent

/-- Model of `get_superset_dir` (lines 290-300); `supersetPkgDir` stands for
`Path(superset.__file__).parent`, the installed package directory. -/
def get_superset_dir (sys : SysState) (moduleParentParent supersetPkgDir : String) :
    String :=
  if is_frozen sys then get_frozen_base_path sys moduleParentParent ++ "/superset"
  else supersetPkgDir

theorem FS.read_write (fs : FS) (p c : String) : (fs.write p c).read p = some c := by
  simp [FS.read, FS.write, List.find?]

theorem FS.read_write_ne (fs : FS) (p q c : String) (h : p ≠ q) :
    (fs.write p c).read q = fs.read q := by
  have hb : (p == q) = false := by simp [h]
  simp [FS.read, FS.write, List.find?, hb]

theorem FS.read_mkdir (fs : FS) (p q : String) : (fs.mkdir p).read q = fs.read q := rfl

theorem string_append_right_ne (home a b : String) (h : a ≠ b) :
    home ++ a ≠ home ++ b := by
  intro he
  apply h
  have hd : (home ++ a).data = (home ++ b).data := congrArg String.data he
  rw [string_data_append, string_data_append] at hd
  have h2 := List.append_cancel_left hd
  cases a; cases b
  exact congrArg String.mk h2

theorem configContent_contains_secret_key (v ap k hs bs : String) :
    strContains (configContent v ap k hs bs) ("SECRET_KEY = \"" ++ k) :=
  ⟨(cfgSeg0 ++ v ++ cfgSeg1 ++ ap ++ cfgSeg2).data,
   (cfgSeg4 ++ cfgSeg5 ++ hs ++ cfgSeg6 ++ cfgSeg7 ++ hs ++ cfgSeg8 ++ hs ++ cfgSeg9
     ++ hs ++ cfgSeg10 ++ hs ++ cfgSeg11 ++ hs ++ cfgSeg12 ++ hs ++ cfgSeg13 ++ cfgSeg14
     ++ cfgSeg15 ++ cfgSeg16 ++ cfgSeg17 ++ bs ++ cfgSeg18).data,
   by simp [configContent, cfgSeg3, string_data_append, List.append_assoc]⟩

theorem configContent_contains_db_uri (v ap k hs bs : String) :
    strContains (configContent v ap k hs bs)
      ("SQLALCHEMY_DATABASE_URI = \"sqlite:///" ++ hs ++ "/superset.db") :=
  ⟨(cfgSeg0 ++ v ++ cfgSeg1 ++ ap ++ cfgSeg2 ++ cfgSeg3 ++ k ++ cfgSeg4).data,
   (cfgSeg7 ++ hs ++ cfgSeg8 ++ hs ++ cfgSeg9 ++ hs ++ cfgSeg10 ++ hs ++ cfgSeg11
     ++ hs ++ cfgSeg12 ++ hs ++ cfgSeg13 ++ cfgSeg14 ++ cfgSeg15 ++ cfgSeg16 ++ cfgSeg17
     ++ bs ++ cfgSeg18).data,
   by simp [configContent, cfgSeg5, cfgSeg6, string_data_append, List.append_assoc]⟩

theorem configContent_contains_mutator (v ap k hs bs : String) :
    strContains (configContent v ap k hs bs) "def FLASK_APP_MUTATOR(app):" :=
  ⟨(cfgSeg0 ++ v ++ cfgSeg1 ++ ap ++ cfgSeg2 ++ cfgSeg3 ++ k ++ cfgSeg4 ++ cfgSeg5
     ++ hs ++ cfgSeg6 ++ cfgSeg7 ++ hs ++ cfgSeg8 ++ hs ++ cfgSeg9 ++ hs ++ cfgSeg10
     ++ hs ++ cfgSeg11 ++ hs ++ cfgSeg12 ++ hs ++ cfgSeg13).data,
   (cfgSeg15 ++ cfgSeg16 ++ cfgSeg17 ++ bs ++ cfgSeg18).data,
   by simp [configContent, cfgSeg14, string_data_append, List.append_assoc]⟩

theorem configContent_contains_register (v ap k hs bs : String) :
    strContains (configContent v ap k hs bs) "app.register_blueprint(branding_bp)" :=
  ⟨(cfgSeg0 ++ v ++ cfgSeg1 ++ ap ++ cfgSeg2 ++ cfgSeg3 ++ k ++ cfgSeg4 ++ cfgSeg5
     ++ hs ++ cfgSeg6 ++ cfgSeg7 ++ hs ++ cfgSeg8 ++ hs ++ cfgSeg9 ++ hs ++ cfgSeg10
     ++ hs ++ cfgSeg11 ++ hs ++ cfgSeg12 ++ hs ++ cfgSeg13 ++ cfgSeg14 ++ cfgSeg15).data,
   (cfgSeg17 ++ bs ++ cfgSeg18).data,
   by simp [configContent, cfgSeg16, string_data_append, List.append_assoc]⟩

/-- C7: when the config file already exists and `force` is not set,
`generate_config` returns the path immediately and the filesystem is
untouched: same files, same directories, config contents and `.secret_key`
exactly as before. -/
theorem generate_config_noop_spec (env : RuntimeEnv) (fs : FS) (homeDir : String)
    (h : (fs.read (homeDir ++ "/superset_config.py")).isSome = true) :
    generate_config env fs homeDir false = (fs, homeDir ++ "/superset_config.py")
    ∧ (generate_config env fs homeDir false).1.files = fs.files
    ∧ (generate_config env fs homeDir false).1.dirs = fs.dirs
    ∧ (generate_config env fs homeDir false).1.read (homeDir ++ "/superset_config.py")
        = fs.read (homeDir ++ "/superset_config.py")
    ∧ (generate_config env fs homeDir false).1.read (homeDir ++ "/.secret_key")
        = fs.read (homeDir ++ "/.secret_key") := by
  have he : generate_config env fs homeDir false = (fs, homeDir ++ "/superset_config.py") := by
    unfold generate_config
    simp [h]
  exact ⟨he, by rw [he], by rw [he], by rw [he], by rw [he]⟩

/-- Witness for the early-return path, on a filesystem that already holds a
config file with contents `x`. -/
theorem generate_config_noop_spec_witness :
    (((⟨[("h/superset_config.py", "x")], ["d"]⟩ : FS).read
        ("h" ++ "/superset_config.py")).isSome = true)
    ∧ generate_config ⟨none, "v", "a", "b", "k"⟩
        (⟨[("h/superset_config.py", "x")], ["d"]⟩ : FS) "h" false
      = ((⟨[("h/superset_config.py", "x")], ["d"]⟩ : FS), "h" ++ "/superset_config.py") :=
  ⟨by decide,
   (generate_config_noop_spec ⟨none, "v", "a", "b", "k"⟩
     (⟨[("h/superset_config.py", "x")], ["d"]⟩ : FS) "h" (by decide)).1⟩

/-- Counterexample to C6 as stated: with an existing (empty) config file and
`force=False`, `generate_config` returns that path but the file does not
contain a `SECRET_KEY` and no cache subdirectory exists. -/
theorem generate_config_existing_counterexample :
    (generate_config ⟨none, "v", "a", "b", "k"⟩
        (⟨[("h/superset_config.py", "")], []⟩ : FS) "h" false).2 = "h/superset_config.py"
    ∧ (generate_config ⟨none, "v", "a", "b", "k"⟩
        (⟨[("h/superset_config.py", "")], []⟩ : FS) "h" false).1.read
          "h/superset_config.py" = some ""
    ∧ ¬ strContains "" "SECRET_KEY"
    ∧ "h/cache" ∉ (generate_config ⟨none, "v", "a", "b", "k"⟩
        (⟨[("h/superset_config.py", "")], []⟩ : FS) "h" false).1.dirs := by
  refine ⟨by rfl, by rfl, ?_, by decide⟩
  rintro ⟨a, b, hh⟩
  have hl := congrArg List.length hh
  simp only [List.length_append, List.length_cons, List.length_nil,
    show ("" : String).data = ([] : List Char) from rfl,
    show ("SECRET_KEY" : String).data.length = 10 from rfl] at hl
  omega

/-- C6 (amended): whenever `generate_config` actually generates — the config
file does not already exist, or `force` is set — it returns
`home_dir/superset_config.py`, that file now holds the rendered template
(containing the SECRET_KEY assignment, the SQLite URI naming
`home_dir/superset.db`, and the branding-blueprint registration in
`FLASK_APP_MUTATOR`), and the six cache/upload/log subdirectories exist. -/
theorem generate_config_writes_spec (env : RuntimeEnv) (fs : FS) (homeDir : String)
    (force : Bool)
    (h : fs.read (homeDir ++ "/superset_config.py") = none ∨ force = true) :
    (generate_config env fs homeDir force).2 = homeDir ++ "/superset_config.py"
    ∧ (∃ key,
        (generate_config env fs homeDir force).1.read (homeDir ++ "/superset_config.py")
          = some (configContent env.version env.appName key (pathFwd homeDir)
              (pathFwd env.brandingStaticDir))
        ∧ strContains (configContent env.version env.appName key (pathFwd homeDir)
            (pathFwd env.brandingStaticDir)) ("SECRET_KEY = \"" ++ key)
        ∧ strContains (configContent env.version env.appName key (pathFwd homeDir)
            (pathFwd env.brandingStaticDir))
            ("SQLALCHEMY_DATABASE_URI = \"sqlite:///" ++ pathFwd homeDir ++ "/superset.db")
        ∧ strContains (configContent env.version env.appName key (pathFwd homeDir)
            (pathFwd env.brandingStaticDir)) "def FLASK_APP_MUTATOR(app):"
        ∧ strContains (configContent env.version env.appName key (pathFwd homeDir)
            (pathFwd env.brandingStaticDir)) "app.register_blueprint(branding_bp)")
    ∧ homeDir ++ "/cache" ∈ (generate_config env fs homeDir force).1.dirs
    ∧ homeDir ++ "/data_cache" ∈ (generate_config env fs homeDir force).1.dirs
    ∧ homeDir ++ "/filter_cache" ∈ (generate_config env fs homeDir force).1.dirs
    ∧ homeDir ++ "/explore_cache" ∈ (generate_config env fs homeDir force).1.dirs
    ∧ homeDir ++ "/uploads" ∈ (generate_config env fs homeDir force).1.dirs
    ∧ homeDir ++ "/logs" ∈ (generate_config env fs homeDir force).1.dirs := by
  have hcond : ((fs.read (homeDir ++ "/superset_config.py")).isSome && !force) = false := by
    rcases h with h | h <;> simp [h]
  unfold generate_config
  simp only [hcond, Bool.false_eq_true, if_false]
  cases hk : envTruthy env.supersetSecretKeyEnv with
  | some k =>
    simp only [hk]
    refine ⟨trivial, ⟨k, ?_, configContent_contains_secret_key _ _ _ _ _,
      configContent_contains_db_uri _ _ _ _ _, configContent_contains_mutator _ _ _ _ _,
      configContent_contains_register _ _ _ _ _⟩, ?_, ?_, ?_, ?_, ?_, ?_⟩
    · simp [FS.mkdir, FS.read, FS.write, List.find?]
    all_goals simp [FS.mkdir, FS.write]
  | none =>
    simp only [hk]
    cases hsk : fs.read (homeDir ++ "/.secret_key") with
    | some txt =>
      simp only [hsk]
      refine ⟨trivial, ⟨pyStrip txt, ?_, configContent_contains_secret_key _ _ _ _ _,
        configContent_contains_db_uri _ _ _ _ _, configContent_contains_mutator _ _ _ _ _,
        configContent_contains_register _ _ _ _ _⟩, ?_, ?_, ?_, ?_, ?_, ?_⟩
      · simp [FS.mkdir, FS.read, FS.write, List.find?]
      all_goals simp [FS.mkdir, FS.write]
    | none =>
      simp only [hsk]
      refine ⟨trivial, ⟨env.freshKey, ?_, configContent_contains_secret_key _ _ _ _ _,
        configContent_contains_db_uri _ _ _ _ _, configContent_contains_mutator _ _ _ _ _,
        configContent_contains_register _ _ _ _ _⟩, ?_, ?_, ?_, ?_, ?_, ?_⟩
      · simp [FS.mkdir, FS.read, FS.write, List.find?]
      all_goals simp [FS.mkdir, FS.write]

/-- Witness: fresh generation on an empty filesystem. -/
theorem generate_config_writes_spec_witness :
    ((⟨[], []⟩ : FS).read ("h" ++ "/superset_config.py") = none ∨ false = true)
    ∧ (generate_config ⟨none, "v", "a", "b", "k"⟩ (⟨[], []⟩ : FS) "h" false).2
        = "h" ++ "/superset_config.py"
    ∧ "h" ++ "/cache"
        ∈ (generate_config ⟨none, "v", "a", "b", "k"⟩ (⟨[], []⟩ : FS) "h" false).1.dirs :=
  ⟨Or.inl rfl,
   (generate_config_writes_spec ⟨none, "v", "a", "b", "k"⟩ ⟨[], []⟩ "h" false
     (Or.inl rfl)).1,
   (generate_config_writes_spec ⟨none, "v", "a", "b", "k"⟩ ⟨[], []⟩ "h" false
     (Or.inl rfl)).2.2.1⟩

/-- C8: with `SUPERSET_SECRET_KEY` unset (or empty) and no persisted key,
the first generation writes the fresh key to `.secret_key` and embeds it in
the config; a subsequent regeneration with `force=True` and a different
fresh-key draw still reads the persisted key and produces a config with the
same SECRET_KEY — the embedded key is invariant across regenerations. -/
theorem secret_key_stable (env : RuntimeEnv) (fs : FS) (homeDir : String) (force : Bool)
    (k2 : String)
    (henv : envTruthy env.supersetSecretKeyEnv = none)
    (hsk : fs.read (homeDir ++ "/.secret_key") = none)
    (hcfg : fs.read (homeDir ++ "/superset_config.py") = none)
    (htrim : pyStrip env.freshKey = env.freshKey) :
    (generate_config env fs homeDir force).1.read (homeDir ++ "/.secret_key")
        = some env.freshKey
    ∧ (generate_config env fs homeDir force).1.read (homeDir ++ "/superset_config.py")
        = some (configContent env.version env.appName env.freshKey (pathFwd homeDir)
            (pathFwd env.brandingStaticDir))
    ∧ (generate_config { env with freshKey := k2 }
          (generate_config env fs homeDir force).1 homeDir true).1.read
          (homeDir ++ "/superset_config.py")
        = some (configContent env.version env.appName env.freshKey (pathFwd homeDir)
            (pathFwd env.brandingStaticDir))
    ∧ (generate_config { env with freshKey := k2 }
          (generate_config env fs homeDir force).1 homeDir true).1.read
          (homeDir ++ "/.secret_key")
        = some env.freshKey := by
  have hcond : ((fs.read (homeDir ++ "/superset_config.py")).isSome && !force) = false := by
    simp [hcfg]
  have hne : homeDir ++ "/superset_config.py" ≠ homeDir ++ "/.secret_key" :=
    string_append_right_ne _ _ _ (by decide)
  have h1 : (generate_config env fs homeDir force).1.read (homeDir ++ "/.secret_key")
      = some env.freshKey := by
    unfold generate_config
    simp only [hcond, Bool.false_eq_true, if_false, henv, hsk]
    rw [FS.read_mkdir, FS.read_mkdir, FS.read_mkdir, FS.read_mkdir, FS.read_mkdir,
      FS.read_mkdir, FS.read_write_ne _ _ _ _ hne, FS.read_write]
  have h2 : (generate_config env fs homeDir force).1.read
      (homeDir ++ "/superset_config.py")
      = some (configContent env.version env.appName env.freshKey (pathFwd homeDir)
          (pathFwd env.brandingStaticDir)) := by
    unfold generate_config
    simp only [hcond, Bool.false_eq_true, if_false, henv, hsk]
    rw [FS.read_mkdir, FS.read_mkdir, FS.read_mkdir, FS.read_mkdir, FS.read_mkdir,
      FS.read_mkdir, FS.read_write]
  refine ⟨h1, h2, ?_, ?_⟩
  · generalize hg : (generate_config env fs homeDir force).1 = fs3 at h1 h2
    have hcond2 : ((fs3.read (homeDir ++ "/superset_config.py")).isSome && !true)
        = false := by simp
    have henv2 : envTruthy ({ env with freshKey := k2 }).supersetSecretKeyEnv
        = none := henv
    unfold generate_config
    simp only [hcond2, Bool.false_eq_true, if_false, henv2, h1, htrim]
    rw [FS.read_mkdir, FS.read_mkdir, FS.read_mkdir, FS.read_mkdir, FS.read_mkdir,
      FS.read_mkdir, FS.read_write]
  · generalize hg : (generate_config env fs homeDir force).1 = fs3 at h1 h2
    have hcond2 : ((fs3.read (homeDir ++ "/superset_config.py")).isSome && !true)
        = false := by simp
    have henv2 : envTruthy ({ env with freshKey := k2 }).supersetSecretKeyEnv
        = none := henv
    unfold generate_config
    simp only [hcond2, Bool.false_eq_true, if_false, henv2, h1, htrim]
    rw [FS.read_mkdir, FS.read_mkdir, FS.read_mkdir, FS.read_mkdir, FS.read_mkdir,
      FS.read_mkdir, FS.read_write_ne _ _ _ _ hne, h1]

/-- Witness: one fresh generation followed by a forced regeneration with a
different fresh-key draw; the embedded key stays the first one. -/
theorem secret_key_stable_witness :
    (envTruthy (none : Option String) = none)
    ∧ ((⟨[], []⟩ : FS).read ("h" ++ "/.secret_key") = none)
    ∧ ((⟨[], []⟩ : FS).read ("h" ++ "/superset_config.py") = none)
    ∧ (pyStrip "k" = "k")
    ∧ (generate_config ⟨none, "v", "a", "b", "k"⟩ (⟨[], []⟩ : FS) "h" false).1.read
        ("h" ++ "/.secret_key") = some "k"
    ∧ (generate_config { (⟨none, "v", "a", "b", "k"⟩ : RuntimeEnv) with freshKey := "z" }
          (generate_config ⟨none, "v", "a", "b", "k"⟩ (⟨[], []⟩ : FS) "h" false).1
          "h" true).1.read ("h" ++ "/superset_config.py")
        = some (configContent "v" "a" "k" (pathFwd "h") (pathFwd "b")) :=
  ⟨rfl, rfl, rfl, by decide,
   (secret_key_stable ⟨none, "v", "a", "b", "k"⟩ ⟨[], []⟩ "h" false "z" rfl rfl rfl
     (by decide)).1,
   (secret_key_stable ⟨none, "v", "a", "b", "k"⟩ ⟨[], []⟩ "h" false "z" rfl rfl rfl
     (by decide)).2.2.1⟩

/-- C9: `is_frozen` is true exactly when `sys.frozen` is truthy and
`sys._MEIPASS` is present; when frozen, `get_frozen_base_path` is
`sys._MEIPASS` and `get_superset_dir` is the bundle-relative
`sys._MEIPASS/superset`; when not frozen, `get_superset_dir` is the
installed package directory. -/
theorem frozen_resolution_spec (sys : SysState) (mpp spd : String) :
    (is_frozen sys = true
      ↔ sys.frozenAttrTruthy = true ∧ sys.meipass.isSome = true)
    ∧ (∀ p, sys.meipass = some p → sys.frozenAttrTruthy = true →
        get_frozen_base_path sys mpp = p
          ∧ get_superset_dir sys mpp spd = p ++ "/superset")
    ∧ (is_frozen sys = false → get_superset_dir sys mpp spd = spd) := by
  refine ⟨by simp [is_frozen], ?_, ?_⟩
  · intro p hp ht
    have hf : is_frozen sys = true := by simp [is_frozen, hp, ht]
    constructor
    · rw [get_frozen_base_path, if_pos hf, hp]
      rfl
    · rw [get_superset_dir, if_pos hf, get_frozen_base_path, if_pos hf, hp]
      rfl
  · intro hf
    rw [get_superset_dir, if_neg (by simp [hf])]

/-- Witness: a frozen state with `_MEIPASS = "/m"` and a non-frozen one. -/
theorem frozen_resolution_spec_witness :
    ((⟨true, some "/m"⟩ : SysState).meipass = some "/m")
    ∧ ((⟨true, some "/m"⟩ : SysState).frozenAttrTruthy = true)
    ∧ (get_frozen_base_path ⟨true, some "/m"⟩ "x" = "/m"
        ∧ get_superset_dir ⟨true, some "/m"⟩ "x" "s" = "/m" ++ "/superset")
    ∧ (is_frozen ⟨false, some "/m"⟩ = false)
    ∧ get_superset_dir ⟨false, some "/m"⟩ "x" "s" = "s" :=
  ⟨rfl, rfl,
   (frozen_resolution_spec ⟨true, some "/m"⟩ "x" "s").2.1 "/m" rfl rfl,
   rfl,
   (frozen_resolution_spec ⟨false, some "/m"⟩ "x" "s").2.2 rfl⟩

end RuntimeCfg




namespace Branding

/-- Model of the response body of the `/api/pypasreportergui/ping` route
(blueprint.py lines 30-44): the key-value record passed to `jsonify`,
parameterised by the package constants `__app_name__` and `__version__`
(defined in the package `__init__`, imported by the route). -/
def ping (appName version : String) : List (String × String) :=
  [("status", "ok"), ("app_name", appName), ("version", version),
   ("message", appName ++ " is running!")]

/-- C10: the ping route's JSON body has `status = "ok"` and `app_name`,
`version` equal to the package constants `__app_name__`, `__version__`. -/
theorem ping_spec (appName version : String) :
    (ping appName version).lookup "status" = some "ok"
    ∧ (ping appName version).lookup "app_name" = some appName
    ∧ (ping appName version).lookup "version" = some version := by
  refine ⟨rfl, ?_, ?_⟩ <;> rfl

end Branding

